import Mathlib

/-!
Shallow embedding of `clap-file` (src/lib.rs): a clap value-parser adapter
that opens a file for reading and returns a `NamedFile` pairing the open
handle with the raw path string, plus an `IoError` wrapper that annotates
an OS-level I/O failure with the path it occurred on.

Modelling conventions:
* Bytes are `Nat` (values < 256 in practice; nothing depends on the bound).
* Paths / OsStrings are Lean `String`.
* The filesystem is an association list from path to file data; `File::open`
  is a lookup that fails with the usual OS error messages.
* A `FileHandle` carries the file's contents and the shared read cursor
  (`pos`).  The fields `readErr`, `metadataErr` and `cloneErr` are oracles
  for the OS's behaviour at the corresponding syscalls: `none` means the
  syscall succeeds (the only possibility for a regular in-memory file),
  `some e` means the OS reports failure `e`.  They let the embedding state
  how the code wraps and propagates low-level failures.
* A Rust panic (e.g. `unwrap()` on `None`) is modelled by a dedicated
  outcome (`ParseOutcome.panicked`, or `none` for `NamedFile.clone`).
-/

/-- A low-level OS error (`std::io::Error`), identified by its rendered
description, which is all the code under verification ever uses. -/
structure OsError where
  message : String
deriving DecidableEq, Repr

/-- Data of one file on the modelled filesystem. -/
structure FsFile where
  contents : List Nat
  readable : Bool
deriving DecidableEq, Repr

/-- The filesystem: an association list from path strings to file data. -/
def FileSystem := List (String × FsFile)

/-- Path lookup on the modelled filesystem (exact, byte-for-byte key match:
no normalization, globbing or tilde-expansion, mirroring `File::open`). -/
def lookupFs : FileSystem → String → Option FsFile
  | [], _ => none
  | (p, f) :: rest, q => if p = q then some f else lookupFs rest q

/-- An open OS file handle (`std::fs::File`): the contents it reads from,
the shared read cursor, and the OS behaviour oracles (see module header). -/
structure FileHandle where
  contents : List Nat
  pos : Nat
  readErr : Option OsError := none
  metadataErr : Option OsError := none
  cloneErr : Option OsError := none
deriving DecidableEq, Repr

/-- Filesystem metadata as used by the code: only the reported length. -/
structure Metadata where
  len : Nat
deriving DecidableEq, Repr

/-- `File::metadata`: reports the file's size, or fails if the OS oracle
says so. -/
def FileHandle.metadata (h : FileHandle) : Except OsError Metadata :=
  match h.metadataErr with
  | some e => Except.error e
  | none => Except.ok { len := h.contents.length }

/-- `BufReader::new(file).read_to_end / read_to_string`'s underlying OS
read loop: returns all bytes from the current cursor to end-of-file and
advances the shared cursor, or fails if the OS oracle says so. -/
def FileHandle.rawReadToEnd (h : FileHandle) : Except OsError (List Nat) × FileHandle :=
  match h.readErr with
  | some e => (Except.error e, h)
  | none => (Except.ok (h.contents.drop h.pos), { h with pos := h.contents.length })

/-- `File::try_clone`: duplicates the OS handle, or fails if the OS oracle
says so. -/
def FileHandle.try_clone (h : FileHandle) : Except OsError FileHandle :=
  match h.cloneErr with
  | some e => Except.error e
  | none => Except.ok h

/-- `File::open(path)`: exactly-one lookup of the raw path; missing file or
unreadable file produce the usual OS errors, success yields a fresh handle
at cursor 0. -/
def fsOpen (fs : FileSystem) (path : String) : Except OsError FileHandle :=
  match lookupFs fs path with
  | none => Except.error { message := "No such file or directory (os error 2)" }
  | some f =>
    if f.readable then
      Except.ok { contents := f.contents, pos := 0 }
    else
      Except.error { message := "Permission denied (os error 13)" }

/-- `pub struct NamedFile { pub file: fs::File, pub path: PathBuf }`. -/
structure NamedFile where
  file : FileHandle
  path : String
deriving DecidableEq, Repr

/-- `pub struct IoError { path: PathBuf, err: io::Error }`. -/
structure IoError where
  path : String
  err : OsError
deriving DecidableEq, Repr

/-- `impl From<IoError> for io::Error { fn from(value) ... value.err }`. -/
def ioErrorIntoIo (value : IoError) : OsError :=
  value.err

/-- `impl Display for IoError`: renders
`Encountered an error while opening the file at {path}: {err}`
(`path.display()`, so the path is interpolated verbatim). -/
def IoError.display (e : IoError) : String :=
  "Encountered an error while opening the file at " ++ e.path ++ ": " ++ e.err.message

/-- The buffer-capacity hint computed at the start of `NamedFile::read` /
`read_to_string`: `self.file().metadata().map_or(0, |m| m.len())`. -/
def bufCapacityHint (h : FileHandle) : Nat :=
  match h.metadata with
  | Except.ok m => m.len
  | Except.error _ => 0

/-- A `Vec<u8>` as built by `read`: contents plus its capacity. -/
structure ByteBuf where
  cap : Nat
  data : List Nat
deriving DecidableEq, Repr

/-- A `String` buffer as built by `read_to_string`: contents plus capacity. -/
structure StrBuf where
  cap : Nat
  data : String
deriving DecidableEq, Repr

/-- `NamedFile::read` with the initial `Vec::with_capacity` argument made
explicit: read everything from the shared cursor, wrapping an OS failure
into `IoError { path: self.path.clone(), err }`.  The capacity only grows
to hold the data; it never influences the bytes read. -/
def NamedFile.readWithCap (nf : NamedFile) (cap : Nat) :
    Except IoError ByteBuf × NamedFile :=
  match nf.file.rawReadToEnd with
  | (Except.error e, h) =>
    (Except.error { path := nf.path, err := e }, { nf with file := h })
  | (Except.ok bytes, h) =>
    (Except.ok { cap := max cap bytes.length, data := bytes }, { nf with file := h })

/-- `pub fn read(&self) -> Result<Vec<u8>, IoError>`.  State-passing form:
also returns the `NamedFile` with the advanced shared cursor. -/
def NamedFile.read (nf : NamedFile) : Except IoError (List Nat) × NamedFile :=
  let r := nf.readWithCap (bufCapacityHint nf.file)
  (r.1.map ByteBuf.data, r.2)

/-- Is `c` a UTF-8 continuation byte (`0x80..=0xBF`)? -/
def isCont (c : Nat) : Bool :=
  decide (0x80 ≤ c ∧ c < 0xC0)

/-- Valid second byte of a 3-byte sequence led by `b` (rejects overlong
encodings for `0xE0` and surrogates for `0xED`). -/
def cont3ok (b c : Nat) : Bool :=
  if b = 0xE0 then decide (0xA0 ≤ c ∧ c < 0xC0)
  else if b = 0xED then decide (0x80 ≤ c ∧ c < 0xA0)
  else isCont c

/-- Valid second byte of a 4-byte sequence led by `b` (rejects overlong
encodings for `0xF0` and code points above `0x10FFFF` for `0xF4`). -/
def cont4ok (b c : Nat) : Bool :=
  if b = 0xF0 then decide (0x90 ≤ c ∧ c < 0xC0)
  else if b = 0xF4 then decide (0x80 ≤ c ∧ c < 0x90)
  else isCont c

/-- Strict UTF-8 decoding (the validation `Read::read_to_string` performs):
returns the decoded code points, or `none` on any ill-formed sequence. -/
def utf8Decode? : List Nat → Option (List Nat)
  | [] => some []
  | b :: rest =>
    if b < 0x80 then
      (utf8Decode? rest).map (fun cs => b :: cs)
    else if b < 0xC2 then none
    else if b < 0xE0 then
      match rest with
      | c :: rest2 =>
        if isCont c then
          (utf8Decode? rest2).map (fun cs => ((b - 0xC0) * 0x40 + (c - 0x80)) :: cs)
        else none
      | [] => none
    else if b < 0xF0 then
      match rest with
      | c :: d :: rest2 =>
        if cont3ok b c && isCont d then
          (utf8Decode? rest2).map
            (fun cs => ((b - 0xE0) * 0x1000 + (c - 0x80) * 0x40 + (d - 0x80)) :: cs)
        else none
      | _ => none
    else if b < 0xF5 then
      match rest with
      | c :: d :: e :: rest2 =>
        if cont4ok b c && isCont d && isCont e then
          (utf8Decode? rest2).map
            (fun cs =>
              ((b - 0xF0) * 0x40000 + (c - 0x80) * 0x1000
                + (d - 0x80) * 0x40 + (e - 0x80)) :: cs)
        else none
      | _ => none
    else none

/-- `NamedFile::read_to_string` with the initial `String::with_capacity`
argument made explicit.  The underlying read consumes the stream either
way; a UTF-8 validation failure is wrapped into the same `IoError` shape
as an OS read failure, with `io::Error`'s standard description. -/
def NamedFile.readToStringWithCap (nf : NamedFile) (cap : Nat) :
    Except IoError StrBuf × NamedFile :=
  match nf.file.rawReadToEnd with
  | (Except.error e, h) =>
    (Except.error { path := nf.path, err := e }, { nf with file := h })
  | (Except.ok bytes, h) =>
    match utf8Decode? bytes with
    | some cps =>
      (Except.ok
        { cap := max cap (cps.map Char.ofNat).length,
          data := String.mk (cps.map Char.ofNat) },
        { nf with file := h })
    | none =>
      (Except.error
        { path := nf.path,
          err := { message := "stream did not contain valid UTF-8" } },
        { nf with file := h })

/-- `pub fn read_to_string(&self) -> Result<String, IoError>`. -/
def NamedFile.read_to_string (nf : NamedFile) : Except IoError String × NamedFile :=
  let r := nf.readToStringWithCap (bufCapacityHint nf.file)
  (r.1.map StrBuf.data, r.2)

/-- `impl Clone for NamedFile`: `self.file.try_clone().unwrap()` plus a
path copy.  `none` models the panic when handle duplication fails. -/
def NamedFile.clone (nf : NamedFile) : Option NamedFile :=
  match nf.file.try_clone with
  | Except.error _ => none
  | Except.ok f => some { file := f, path := nf.path }

/-- Lowercase-hex rendering of `n`, as Rust's `\u` escape uses. -/
def hexChars (n : Nat) : List Char :=
  Nat.toDigits 16 n

/-- Rust's `Debug` escaping of one character, as used when a `Path` is
formatted with `{:?}` (`char::escape_debug` semantics): backslash, double
quote, tab, CR, LF and NUL get two-character escapes, other control
characters a `\u` escape, and everything else passes through. -/
def rustCharEscape (c : Char) : List Char :=
  if c = '\\' then ['\\', '\\']
  else if c = '"' then ['\\', '"']
  else if c = '\n' then ['\\', 'n']
  else if c = '\t' then ['\\', 't']
  else if c = '\r' then ['\\', 'r']
  else if c.toNat = 0 then ['\\', '0']
  else if c.toNat < 0x20 ∨ c.toNat = 0x7F then
    ['\\', 'u', Char.ofNat 0x7B] ++ hexChars c.toNat ++ [Char.ofNat 0x7D]
  else [c]

/-- The `{:?}` (Debug) rendering of a `Path`: the path wrapped in double
quotes with each character Debug-escaped. -/
def rustPathDebug (p : String) : String :=
  String.mk ('"' :: (p.data.flatMap rustCharEscape) ++ ['"'])

/-- `p` contains no character that `rustCharEscape` alters: printable
ASCII other than backslash and double quote.  For such paths the Debug
rendering is just the path in quotes. -/
def noEscapeChars (p : String) : Bool :=
  p.data.all fun c =>
    decide (0x20 ≤ c.toNat ∧ c.toNat < 0x7F) && !(c = '\\') && !(c = '"')

/-- Does `pat` occur at the start of `s`? -/
def strStarts : List Char → List Char → Bool
  | [], _ => true
  | _ :: _, [] => false
  | a :: pat, b :: s => a == b && strStarts pat s

/-- Does `pat` occur (contiguously) anywhere in `s`? -/
def strFind (pat : List Char) : List Char → Bool
  | [] => strStarts pat []
  | c :: rest => strStarts pat (c :: rest) || strFind pat rest

/-- Substring test on strings: does `s` contain `pat`? -/
def strContains (s pat : String) : Bool :=
  strFind pat.data s.data

/-- The command definition (`clap::Command`), used only to attach
framework-standard formatting (`with_cmd`); the adapter reads nothing
from it, so only its name is modelled. -/
structure Command where
  name : String
deriving DecidableEq, Repr

/-- The argument descriptor (`clap::Arg`) as the adapter consumes it:
`get_value_names()` returns the declared value names, or `none` when the
framework tracked none. -/
structure Arg where
  valueNames : Option (List String)
deriving DecidableEq, Repr

/-- `Arg::get_value_names`. -/
def Arg.get_value_names (a : Arg) : Option (List String) :=
  a.valueNames

/-- The subset of `clap::error::ErrorKind` this adapter uses. -/
inductive ErrorKind where
  | valueValidation
  | other
deriving DecidableEq, Repr

/-- `clap::Error` as constructed by `clap::Error::raw(kind, message)
.with_cmd(cmd)`: a kind, the raw message, and the attached command. -/
structure ClapError where
  kind : ErrorKind
  message : String
  cmd : Command
deriving DecidableEq, Repr

/-- Outcome of a call to `NamedFileParser::parse`: success, a returned
`clap::Error`, or a Rust panic. -/
inductive ParseOutcome where
  | ok (nf : NamedFile)
  | err (e : ClapError)
  | panicked
deriving DecidableEq, Repr

/-- The error message of a `ParseOutcome`, when it is an error. -/
def ParseOutcome.errMessage? : ParseOutcome → Option String
  | ParseOutcome.err e => some e.message
  | _ => none

/-- One observable filesystem interaction. -/
inductive FsOp where
  | openRead (path : String)
deriving DecidableEq, Repr

/-- `pub struct NamedFileParser;` — the stateless adapter. -/
structure NamedFileParser where
deriving DecidableEq, Repr

/-- `<NamedFileParser as TypedValueParser>::parse`, together with the
trace of filesystem interactions it performs.  On open failure with an
`Arg` present, the message is
`Could not open file specified at {value_name}: {path:?}\n{err}\n`,
where the value name is `arg.get_value_names().unwrap()[0]` — a panic
when `get_value_names()` is `None` (or names an empty slice); without an
`Arg` it is `Could not open file: {path:?}\n{err}\n`.  On success the
returned `NamedFile` stores the raw `value` verbatim as its path. -/
def NamedFileParser.parse (fs : FileSystem) (cmd : Command) (arg : Option Arg)
    (value : String) : ParseOutcome × List FsOp :=
  let path := value
  match fsOpen fs path with
  | Except.ok file =>
    (ParseOutcome.ok { file := file, path := value }, [FsOp.openRead path])
  | Except.error err =>
    match arg with
    | some a =>
      match a.get_value_names with
      | some (n :: _) =>
        (ParseOutcome.err
          { kind := ErrorKind.valueValidation,
            message := "Could not open file specified at " ++ n ++ ": "
              ++ rustPathDebug path ++ "\n" ++ err.message ++ "\n",
            cmd := cmd },
          [FsOp.openRead path])
      | _ => (ParseOutcome.panicked, [FsOp.openRead path])
    | none =>
      (ParseOutcome.err
        { kind := ErrorKind.valueValidation,
          message := "Could not open file: " ++ rustPathDebug path ++ "\n"
            ++ err.message ++ "\n",
          cmd := cmd },
        [FsOp.openRead path])

theorem strStarts_self_append (p t : List Char) : strStarts p (p ++ t) = true := by
  induction p with
  | nil => rfl
  | cons a p ih => simp [strStarts, ih]

theorem strFind_of_starts (p s : List Char) (h : strStarts p s = true) :
    strFind p s = true := by
  cases s with
  | nil => simpa [strFind] using h
  | cons c rest => simp [strFind, h]

theorem strFind_append_left (p t s : List Char) (h : strFind p s = true) :
    strFind p (t ++ s) = true := by
  induction t with
  | nil => simpa using h
  | cons c t ih => simp [strFind, ih]

/-- A string contains itself followed by anything. -/
theorem strContains_left (sub y : String) : strContains (sub ++ y) sub = true := by
  unfold strContains
  rw [String.data_append]
  exact strFind_of_starts _ _ (strStarts_self_append _ _)

/-- Containment is preserved by prepending. -/
theorem strContains_cons (x s sub : String) (h : strContains s sub = true) :
    strContains (x ++ s) sub = true := by
  unfold strContains at h ⊢
  rw [String.data_append]
  exact strFind_append_left _ _ _ h

theorem rustCharEscape_plain (c : Char) (h1 : 0x20 ≤ c.toNat) (h2 : c.toNat < 0x7F)
    (h3 : c ≠ '\\') (h4 : c ≠ '"') : rustCharEscape c = [c] := by
  have hn : c ≠ '\n' := fun he => absurd (he ▸ h1) (by decide)
  have ht : c ≠ '\t' := fun he => absurd (he ▸ h1) (by decide)
  have hr : c ≠ '\r' := fun he => absurd (he ▸ h1) (by decide)
  have h0 : ¬(c.toNat = 0) := by omega
  have hc : ¬(c.toNat < 0x20 ∨ c.toNat = 0x7F) := by omega
  unfold rustCharEscape
  rw [if_neg h3, if_neg h4, if_neg hn, if_neg ht, if_neg hr, if_neg h0, if_neg hc]

theorem flatMap_escape_plain (l : List Char)
    (h : ∀ c ∈ l,
      (decide (0x20 ≤ c.toNat ∧ c.toNat < 0x7F) && !(c = '\\') && !(c = '"')) = true) :
    l.flatMap rustCharEscape = l := by
  induction l with
  | nil => rfl
  | cons c l ih =>
    have hc := h c (List.mem_cons_self c l)
    simp only [Bool.and_eq_true, decide_eq_true_eq, Bool.not_eq_true',
      decide_eq_false_iff_not] at hc
    obtain ⟨⟨⟨hlo, hhi⟩, hbs⟩, hq⟩ := hc
    rw [List.flatMap_cons, rustCharEscape_plain c hlo hhi hbs hq,
      ih (fun d hd => h d (List.mem_cons_of_mem c hd))]
    rfl

/-- For a path free of escaped characters, the Debug rendering is just the
path wrapped in double quotes. -/
theorem rustPathDebug_plain (p : String) (h : noEscapeChars p = true) :
    rustPathDebug p = "\"" ++ (p ++ "\"") := by
  apply String.ext
  unfold noEscapeChars at h
  rw [List.all_eq_true] at h
  show '"' :: (p.data.flatMap rustCharEscape) ++ ['"'] = _
  rw [flatMap_escape_plain p.data h]
  simp [String.data_append]

/-- C1: for every raw argument text that names an existing, readable file,
`NamedFileParser::parse` succeeds, performs exactly one open-for-read call,
and returns a `NamedFile` whose `path()` equals the raw argument text
exactly (byte-for-byte, no normalization, globbing or tilde-expansion) and
whose `read()` returns the file's full contents. -/
theorem parse_opens_and_reads_existing_file
    (fs : FileSystem) (cmd : Command) (arg : Option Arg) (value : String) (f : FsFile)
    (hlook : lookupFs fs value = some f) (hread : f.readable = true) :
    (NamedFileParser.parse fs cmd arg value).2 = [FsOp.openRead value] ∧
    ∃ nf, (NamedFileParser.parse fs cmd arg value).1 = ParseOutcome.ok nf ∧
      nf.path = value ∧ (nf.read).1 = Except.ok f.contents := by
  refine ⟨by simp [NamedFileParser.parse, fsOpen, hlook, hread], ?_⟩
  refine ⟨⟨⟨f.contents, 0, none, none, none⟩, value⟩,
    by simp [NamedFileParser.parse, fsOpen, hlook, hread], rfl, ?_⟩
  simp [NamedFile.read, NamedFile.readWithCap, FileHandle.rawReadToEnd, Except.map]

theorem parse_opens_and_reads_existing_file_witness :
    (NamedFileParser.parse [("a.txt", { contents := [104, 105], readable := true })]
        { name := "app" } none "a.txt").2 = [FsOp.openRead "a.txt"] ∧
    ∃ nf,
      (NamedFileParser.parse [("a.txt", { contents := [104, 105], readable := true })]
          { name := "app" } none "a.txt").1 = ParseOutcome.ok nf ∧
      nf.path = "a.txt" ∧ (nf.read).1 = Except.ok [104, 105] :=
  parse_opens_and_reads_existing_file _ _ _ _
    { contents := [104, 105], readable := true } (by decide) rfl

/-- C4: reading twice in sequence on the same value without repositioning
(starting from a fresh cursor, with the OS reads succeeding) returns the
full contents first and an empty `Ok` (not an error) second, because both
reads advance the shared cursor. -/
theorem read_twice_full_then_empty (nf : NamedFile)
    (hpos : nf.file.pos = 0) (herr : nf.file.readErr = none) :
    (nf.read).1 = Except.ok nf.file.contents ∧
    ((nf.read).2.read).1 = Except.ok ([] : List Nat) := by
  obtain ⟨⟨cont, pos, re, me, ce⟩, path⟩ := nf
  dsimp at hpos herr
  subst hpos
  subst herr
  simp [NamedFile.read, NamedFile.readWithCap, FileHandle.rawReadToEnd, Except.map]

theorem read_twice_full_then_empty_witness :
    ((NamedFile.read { file := { contents := [1, 2, 3], pos := 0 }, path := "f" }).1
      = Except.ok [1, 2, 3]) ∧
    (((NamedFile.read { file := { contents := [1, 2, 3], pos := 0 }, path := "f" }).2.read).1
      = Except.ok ([] : List Nat)) :=
  read_twice_full_then_empty _ rfl rfl

/-- C6: cloning a `NamedFile` duplicates the underlying OS handle and
copies the path string; an OS-level duplication failure surfaces as a panic
(`none` in the model), never as a typed, recoverable error — `clone`'s
result type has no error channel at all. -/
theorem clone_duplicates_or_panics (nf : NamedFile) :
    (nf.file.cloneErr = none → nf.clone = some { file := nf.file, path := nf.path }) ∧
    (∀ e, nf.file.cloneErr = some e → nf.clone = none) := by
  constructor
  · intro h
    simp [NamedFile.clone, FileHandle.try_clone, h]
  · intro e h
    simp [NamedFile.clone, FileHandle.try_clone, h]

theorem clone_duplicates_or_panics_witness :
    NamedFile.clone { file := { contents := [1], pos := 0 }, path := "f" }
      = some { file := { contents := [1], pos := 0 }, path := "f" } ∧
    NamedFile.clone
      { file := { contents := [1], pos := 0, cloneErr := some { message := "dup failed" } },
        path := "f" } = none :=
  ⟨(clone_duplicates_or_panics _).1 rfl,
    (clone_duplicates_or_panics _).2 { message := "dup failed" } rfl⟩

/-- C9: if `parse` is called with an argument descriptor present whose
`get_value_names()` is `None` and the file open fails, the `unwrap()`
panics instead of returning a framework error. -/
theorem parse_panics_without_value_names
    (fs : FileSystem) (cmd : Command) (a : Arg) (value : String) (e : OsError)
    (hv : a.get_value_names = none) (hopen : fsOpen fs value = Except.error e) :
    (NamedFileParser.parse fs cmd (some a) value).1 = ParseOutcome.panicked := by
  simp [NamedFileParser.parse, hopen, hv]

theorem parse_panics_without_value_names_witness :
    (NamedFileParser.parse [] { name := "app" } (some { valueNames := none })
        "missing.txt").1 = ParseOutcome.panicked :=
  parse_panics_without_value_names _ _ _ _
    { message := "No such file or directory (os error 2)" } rfl rfl

/-- Any error returned by `read` carries the value's own path and wraps
exactly the OS failure the underlying read reported. -/
theorem read_error_eq (nf : NamedFile) (e : IoError) (r : NamedFile)
    (h : nf.read = (Except.error e, r)) :
    e.path = nf.path ∧ nf.file.readErr = some e.err := by
  obtain ⟨⟨cont, pos, re, me, ce⟩, path⟩ := nf
  cases re with
  | none =>
    exfalso
    simp [NamedFile.read, NamedFile.readWithCap, FileHandle.rawReadToEnd, Except.map] at h
  | some e0 =>
    simp only [NamedFile.read, NamedFile.readWithCap, FileHandle.rawReadToEnd,
      Except.map, Prod.mk.injEq, Except.error.injEq] at h
    obtain ⟨h1, -⟩ := h
    subst h1
    exact ⟨rfl, rfl⟩

/-- Any error returned by `read_to_string` carries the value's own path
and wraps either the OS failure of the underlying read or the standard
invalid-UTF-8 failure. -/
theorem read_to_string_error_eq (nf : NamedFile) (e : IoError) (r : NamedFile)
    (h : nf.read_to_string = (Except.error e, r)) :
    e.path = nf.path ∧
    (nf.file.readErr = some e.err ∨
      (nf.file.readErr = none ∧ e.err.message = "stream did not contain valid UTF-8")) := by
  obtain ⟨⟨cont, pos, re, me, ce⟩, path⟩ := nf
  cases re with
  | none =>
    cases hdec : utf8Decode? (cont.drop pos) with
    | some cps =>
      exfalso
      simp [NamedFile.read_to_string, NamedFile.readToStringWithCap,
        FileHandle.rawReadToEnd, Except.map, hdec] at h
    | none =>
      simp only [NamedFile.read_to_string, NamedFile.readToStringWithCap,
        FileHandle.rawReadToEnd, Except.map, hdec, Prod.mk.injEq,
        Except.error.injEq] at h
      obtain ⟨h1, -⟩ := h
      subst h1
      exact ⟨rfl, Or.inr ⟨rfl, rfl⟩⟩
  | some e0 =>
    simp only [NamedFile.read_to_string, NamedFile.readToStringWithCap,
      FileHandle.rawReadToEnd, Except.map, Prod.mk.injEq, Except.error.injEq] at h
    obtain ⟨h1, -⟩ := h
    subst h1
    exact ⟨rfl, Or.inl rfl⟩

/-- C5: on a file whose bytes are not valid UTF-8, `read_to_string` fails
with the one and only path-annotated error kind, `IoError`, wrapping
`io::Error`'s standard invalid-data description — there is no separate
encoding-error kind — while `read` on an independently opened handle to
the same contents succeeds and returns the raw bytes. -/
theorem read_to_string_invalid_utf8 (nf : NamedFile)
    (hpos : nf.file.pos = 0) (herr : nf.file.readErr = none)
    (hbad : utf8Decode? nf.file.contents = none) :
    (nf.read_to_string).1 = Except.error
      { path := nf.path, err := { message := "stream did not contain valid UTF-8" } } ∧
    (nf.read).1 = Except.ok nf.file.contents := by
  obtain ⟨⟨cont, pos, re, me, ce⟩, path⟩ := nf
  dsimp at hpos herr hbad
  subst hpos
  subst herr
  simp [NamedFile.read_to_string, NamedFile.readToStringWithCap, NamedFile.read,
    NamedFile.readWithCap, FileHandle.rawReadToEnd, Except.map, hbad]

theorem read_to_string_invalid_utf8_witness :
    ((NamedFile.read_to_string { file := { contents := [255], pos := 0 }, path := "bin" }).1
      = Except.error
        { path := "bin", err := { message := "stream did not contain valid UTF-8" } }) ∧
    ((NamedFile.read { file := { contents := [255], pos := 0 }, path := "bin" }).1
      = Except.ok [255]) :=
  read_to_string_invalid_utf8 _ rfl rfl rfl

/-- C7: every `IoError` the operations construct carries both the path
being operated on and the wrapped low-level failure — it is never built
from a bare I/O failure without a path — and `From<IoError> for io::Error`
returns exactly the wrapped failure. -/
theorem ioError_path_annotated :
    (∀ e : IoError, ioErrorIntoIo e = e.err) ∧
    (∀ (nf : NamedFile) (e : IoError) (r : NamedFile), nf.read = (Except.error e, r) →
      e.path = nf.path ∧ nf.file.readErr = some e.err) ∧
    (∀ (nf : NamedFile) (e : IoError) (r : NamedFile),
      nf.read_to_string = (Except.error e, r) →
      e.path = nf.path ∧
      (nf.file.readErr = some e.err ∨
        (nf.file.readErr = none ∧ e.err.message = "stream did not contain valid UTF-8"))) :=
  ⟨fun _ => rfl, read_error_eq, read_to_string_error_eq⟩

theorem ioError_path_annotated_witness :
    ioErrorIntoIo { path := "p", err := { message := "kaboom" } } = { message := "kaboom" } ∧
    (({ path := "p", err := { message := "kaboom" } } : IoError).path =
      ({ file := { contents := [1], pos := 0, readErr := some { message := "kaboom" } },
          path := "p" } : NamedFile).path ∧
      ({ file := { contents := [1], pos := 0, readErr := some { message := "kaboom" } },
          path := "p" } : NamedFile).file.readErr =
        some ({ path := "p", err := { message := "kaboom" } } : IoError).err) :=
  ⟨ioError_path_annotated.1 _,
    ioError_path_annotated.2.1
      { file := { contents := [1], pos := 0, readErr := some { message := "kaboom" } },
        path := "p" }
      { path := "p", err := { message := "kaboom" } }
      { file := { contents := [1], pos := 0, readErr := some { message := "kaboom" } },
        path := "p" }
      rfl⟩

/-- C8: `read` and `read_to_string` pre-size their output buffer with the
filesystem-reported size when metadata is available, fall back to zero
capacity when metadata retrieval fails, and the capacity is only a hint:
it influences neither the returned contents nor success or failure. -/
theorem read_capacity_hint_spec :
    (∀ h : FileHandle, h.metadataErr = none → bufCapacityHint h = h.contents.length) ∧
    (∀ (h : FileHandle) (e : OsError), h.metadataErr = some e → bufCapacityHint h = 0) ∧
    (∀ (nf : NamedFile) (c c' : Nat),
      (nf.readWithCap c).1.map ByteBuf.data = (nf.readWithCap c').1.map ByteBuf.data ∧
      (nf.readWithCap c).2 = (nf.readWithCap c').2) ∧
    (∀ (nf : NamedFile) (c c' : Nat),
      (nf.readToStringWithCap c).1.map StrBuf.data
        = (nf.readToStringWithCap c').1.map StrBuf.data ∧
      (nf.readToStringWithCap c).2 = (nf.readToStringWithCap c').2) ∧
    (∀ nf : NamedFile,
      nf.read = ((nf.readWithCap (bufCapacityHint nf.file)).1.map ByteBuf.data,
        (nf.readWithCap (bufCapacityHint nf.file)).2) ∧
      nf.read_to_string
        = ((nf.readToStringWithCap (bufCapacityHint nf.file)).1.map StrBuf.data,
          (nf.readToStringWithCap (bufCapacityHint nf.file)).2)) := by
  refine ⟨?_, ?_, ?_, ?_, fun nf => ⟨rfl, rfl⟩⟩
  · intro h hm
    simp [bufCapacityHint, FileHandle.metadata, hm]
  · intro h e hm
    simp [bufCapacityHint, FileHandle.metadata, hm]
  · intro nf c c'
    obtain ⟨⟨cont, pos, re, me, ce⟩, path⟩ := nf
    cases re with
    | none => simp [NamedFile.readWithCap, FileHandle.rawReadToEnd, Except.map]
    | some e0 => simp [NamedFile.readWithCap, FileHandle.rawReadToEnd, Except.map]
  · intro nf c c'
    obtain ⟨⟨cont, pos, re, me, ce⟩, path⟩ := nf
    cases re with
    | none =>
      cases hdec : utf8Decode? (cont.drop pos) with
      | some cps =>
        simp [NamedFile.readToStringWithCap, FileHandle.rawReadToEnd, Except.map, hdec]
      | none =>
        simp [NamedFile.readToStringWithCap, FileHandle.rawReadToEnd, Except.map, hdec]
    | some e0 =>
      simp [NamedFile.readToStringWithCap, FileHandle.rawReadToEnd, Except.map]

theorem read_capacity_hint_spec_witness :
    bufCapacityHint { contents := [1, 2], pos := 0 } = 2 ∧
    bufCapacityHint
      { contents := [1, 2], pos := 0, metadataErr := some { message := "stat failed" } } = 0 :=
  ⟨read_capacity_hint_spec.1 _ rfl,
    read_capacity_hint_spec.2.1 _ { message := "stat failed" } rfl⟩

/-- C10: the `Display` rendering of every `IoError` describes the failure
as happening "while opening the file at" the stored path — including
errors that actually arose inside `read` (an OS read failure) or inside
`read_to_string` (a UTF-8 decode failure). -/
theorem ioError_display_always_opening :
    (∀ e : IoError, e.display =
      "Encountered an error while opening the file at " ++ e.path ++ ": "
        ++ e.err.message) ∧
    (∀ (nf : NamedFile) (e : IoError) (r : NamedFile), nf.read = (Except.error e, r) →
      e.display = "Encountered an error while opening the file at " ++ nf.path ++ ": "
        ++ e.err.message) ∧
    (∀ (nf : NamedFile) (e : IoError) (r : NamedFile),
      nf.read_to_string = (Except.error e, r) → nf.file.readErr = none →
      e.display = "Encountered an error while opening the file at " ++ nf.path ++ ": "
        ++ e.err.message ∧
      e.err.message = "stream did not contain valid UTF-8") := by
  refine ⟨fun e => rfl, ?_, ?_⟩
  · intro nf e r h
    obtain ⟨hp, -⟩ := read_error_eq nf e r h
    simp [IoError.display, hp]
  · intro nf e r h hre
    obtain ⟨hp, hor⟩ := read_to_string_error_eq nf e r h
    rcases hor with h1 | ⟨-, h3⟩
    · rw [hre] at h1
      cases h1
    · exact ⟨by simp [IoError.display, hp], h3⟩

theorem ioError_display_always_opening_witness :
    IoError.display { path := "bin", err := { message := "stream did not contain valid UTF-8" } }
      = "Encountered an error while opening the file at "
        ++ ({ file := { contents := [255], pos := 0 }, path := "bin" } : NamedFile).path
        ++ ": "
        ++ ({ path := "bin",
              err := { message := "stream did not contain valid UTF-8" } } : IoError).err.message ∧
    ({ path := "bin",
        err := { message := "stream did not contain valid UTF-8" } } : IoError).err.message
      = "stream did not contain valid UTF-8" :=
  ioError_display_always_opening.2.2
    { file := { contents := [255], pos := 0 }, path := "bin" }
    { path := "bin", err := { message := "stream did not contain valid UTF-8" } }
    { file := { contents := [255], pos := 1 }, path := "bin" }
    rfl rfl

/-- C2 counterexample: for the non-existent path `a\b` the error message
renders the path with `{:?}` (Debug), which escapes the backslash, so the
message does not contain the literal string `a\b`. -/
theorem parse_missing_raw_backslash_cex :
    (ParseOutcome.errMessage?
        (NamedFileParser.parse [] { name := "app" } none "a\\b").1).isSome = true ∧
    Option.all (fun m => !(strContains m "a\\b"))
      (ParseOutcome.errMessage?
        (NamedFileParser.parse [] { name := "app" } none "a\\b").1) = true := by
  decide

/-- C2 (amended): for every non-existent path P, `parse` fails with an
error whose message contains the Debug (`{:?}`) rendering of P — P wrapped
in double quotes with backslashes, quotes and control characters escaped;
whenever P contains no such escape-requiring character, the message
therefore contains the literal string P itself. -/
theorem parse_missing_contains_debug_path
    (fs : FileSystem) (cmd : Command) (arg : Option Arg) (value : String)
    (hlook : lookupFs fs value = none)
    (hargOk : arg = none ∨ ∃ a n l, arg = some a ∧ a.get_value_names = some (n :: l)) :
    ∃ e, (NamedFileParser.parse fs cmd arg value).1 = ParseOutcome.err e ∧
      strContains e.message (rustPathDebug value) = true ∧
      (noEscapeChars value = true → strContains e.message value = true) := by
  rcases hargOk with rfl | ⟨a, n, l, rfl, hv⟩
  · refine ⟨⟨ErrorKind.valueValidation,
      "Could not open file: " ++ rustPathDebug value ++ "\n"
        ++ "No such file or directory (os error 2)" ++ "\n",
      cmd⟩, by simp [NamedFileParser.parse, fsOpen, hlook], ?_, ?_⟩
    · simp only [String.append_assoc]
      repeat
        first
        | exact strContains_left _ _
        | apply strContains_cons
    · intro hne
      rw [rustPathDebug_plain value hne]
      simp only [String.append_assoc]
      repeat
        first
        | exact strContains_left _ _
        | apply strContains_cons
  · refine ⟨⟨ErrorKind.valueValidation,
      "Could not open file specified at " ++ n ++ ": " ++ rustPathDebug value
        ++ "\n" ++ "No such file or directory (os error 2)" ++ "\n",
      cmd⟩, by simp [NamedFileParser.parse, fsOpen, hlook, hv], ?_, ?_⟩
    · simp only [String.append_assoc]
      repeat
        first
        | exact strContains_left _ _
        | apply strContains_cons
    · intro hne
      rw [rustPathDebug_plain value hne]
      simp only [String.append_assoc]
      repeat
        first
        | exact strContains_left _ _
        | apply strContains_cons

theorem parse_missing_contains_debug_path_witness :
    ∃ e, (NamedFileParser.parse [] { name := "app" } none "m.txt").1 = ParseOutcome.err e ∧
      strContains e.message (rustPathDebug "m.txt") = true ∧
      (noEscapeChars "m.txt" = true → strContains e.message "m.txt" = true) :=
  parse_missing_contains_debug_path [] { name := "app" } none "m.txt" rfl (Or.inl rfl)

/-- C3: when `parse` fails and the framework supplied an argument
descriptor (with its declared name available), the message includes the
argument's declared name, the attempted path, and the OS error
description; with no descriptor the message is exactly the fixed template
stating only the path and the cause, with no argument-name component. -/
theorem parse_error_message_components
    (fs : FileSystem) (cmd : Command) (value : String) (osErr : OsError)
    (hopen : fsOpen fs value = Except.error osErr)
    (a : Arg) (n : String) (l : List String) (hv : a.get_value_names = some (n :: l)) :
    (∃ e, (NamedFileParser.parse fs cmd (some a) value).1 = ParseOutcome.err e ∧
      strContains e.message n = true ∧
      strContains e.message (rustPathDebug value) = true ∧
      strContains e.message osErr.message = true) ∧
    ((NamedFileParser.parse fs cmd none value).1 = ParseOutcome.err
      { kind := ErrorKind.valueValidation,
        message := "Could not open file: " ++ rustPathDebug value ++ "\n"
          ++ osErr.message ++ "\n",
        cmd := cmd }) := by
  constructor
  · refine ⟨⟨ErrorKind.valueValidation,
      "Could not open file specified at " ++ n ++ ": " ++ rustPathDebug value
        ++ "\n" ++ osErr.message ++ "\n",
      cmd⟩, by simp [NamedFileParser.parse, hopen, hv], ?_, ?_, ?_⟩
    all_goals
      simp only [String.append_assoc]
      repeat
        first
        | exact strContains_left _ _
        | apply strContains_cons
  · simp [NamedFileParser.parse, hopen]

theorem parse_error_message_components_witness :
    (∃ e, (NamedFileParser.parse [] { name := "app" }
        (some { valueNames := some ["input"] }) "in.txt").1 = ParseOutcome.err e ∧
      strContains e.message "input" = true ∧
      strContains e.message (rustPathDebug "in.txt") = true ∧
      strContains e.message "No such file or directory (os error 2)" = true) ∧
    ((NamedFileParser.parse [] { name := "app" } none "in.txt").1 = ParseOutcome.err
      { kind := ErrorKind.valueValidation,
        message := "Could not open file: " ++ rustPathDebug "in.txt" ++ "\n"
          ++ "No such file or directory (os error 2)" ++ "\n",
        cmd := { name := "app" } }) :=
  parse_error_message_components [] { name := "app" } "in.txt"
    { message := "No such file or directory (os error 2)" } rfl
    { valueNames := some ["input"] } "input" [] rfl
